import Mathlib

/-
Verification development for the FORT validator's local artifact cache
(src/cache/local_cache.c) and the SLURM overlay loader (slurm parser).

Shallow embedding conventions:
 * C `time_t` and `int` values are modelled as `Int`.
 * The flag bitset `CNF_*` lives on `Int`; since all flags are distinct
   powers of two, the C operators `&`, `|`, `&~` restricted to a single
   bit are modelled arithmetically (`hasFlag`, `addFlag`), which agrees
   with two's-complement semantics for every `Int`.
 * The external fetchers (`rsync_download`, `http_download`) are oracles:
   the fetch outcome is an `Int` error-code parameter of `cache_download`.
 * Disk side effects of `delete_node_file` (which touch only the
   filesystem, never the node tree) are not tracked by the download model;
   the cleanup model carries an explicit filesystem tree.
-/

/-- C `flags & bit ≠ 0` for `bit` a power of two (two's-complement bit test).
For `bit = 0` (used by `recursive ? 0 : CNF_FILE`) this is `false`. -/
def hasFlag (flags bit : Int) : Bool :=
  (flags / bit) % 2 == 1

/-- C `flags |= bit` for `bit` a power of two (or `0`, which is a no-op). -/
def addFlag (flags bit : Int) : Int :=
  if hasFlag flags bit then flags else flags + bit

def CNF_DIRECT : Int := 1
def CNF_SUCCESS : Int := 2
def CNF_FOUND : Int := 4
def CNF_FILE : Int := 8

/-- `struct cache_node`: basename, flags, ts_success, ts_attempt, error,
children.  The `parent` back-pointer is represented structurally (a child
is reachable only through its parent's `children`). -/
inductive CacheNode : Type where
  | mk (basename : String) (flags : Int) (ts_success : Int) (ts_attempt : Int)
      (error : Int) (children : List CacheNode) : CacheNode

def CacheNode.basename : CacheNode → String
  | .mk b _ _ _ _ _ => b

def CacheNode.flags : CacheNode → Int
  | .mk _ f _ _ _ _ => f

def CacheNode.ts_success : CacheNode → Int
  | .mk _ _ s _ _ _ => s

def CacheNode.ts_attempt : CacheNode → Int
  | .mk _ _ _ a _ _ => a

def CacheNode.error : CacheNode → Int
  | .mk _ _ _ _ e _ => e

def CacheNode.children : CacheNode → List CacheNode
  | .mk _ _ _ _ _ c => c

/-- C `node->flags = f` (plain overwrite). -/
def CacheNode.withFlags : CacheNode → Int → CacheNode
  | .mk b _ s a e c, f => .mk b f s a e c

def CacheNode.withChildren : CacheNode → List CacheNode → CacheNode
  | .mk b f s a e _, c => .mk b f s a e c

@[simp] theorem CacheNode.basename_mk (b f s a e c) :
    (CacheNode.mk b f s a e c).basename = b := rfl

@[simp] theorem CacheNode.flags_mk (b f s a e c) :
    (CacheNode.mk b f s a e c).flags = f := rfl

@[simp] theorem CacheNode.ts_success_mk (b f s a e c) :
    (CacheNode.mk b f s a e c).ts_success = s := rfl

@[simp] theorem CacheNode.ts_attempt_mk (b f s a e c) :
    (CacheNode.mk b f s a e c).ts_attempt = a := rfl

@[simp] theorem CacheNode.error_mk (b f s a e c) :
    (CacheNode.mk b f s a e c).error = e := rfl

@[simp] theorem CacheNode.children_mk (b f s a e c) :
    (CacheNode.mk b f s a e c).children = c := rfl

@[simp] theorem CacheNode.withFlags_def (n : CacheNode) (f : Int) :
    n.withFlags f = .mk n.basename f n.ts_success n.ts_attempt n.error n.children := by
  cases n <;> rfl

@[simp] theorem CacheNode.withChildren_def (n : CacheNode) (c : List CacheNode) :
    n.withChildren c = .mk n.basename n.flags n.ts_success n.ts_attempt n.error c := by
  cases n <;> rfl

theorem CacheNode.withChildren_self (n : CacheNode) :
    n.withChildren n.children = n := by
  cases n <;> rfl

/-- `pzalloc` + `pstrdup` (`add_child` / `init_root` allocation): all
numeric fields zero, no children. -/
def newNode (basename : String) : CacheNode :=
  .mk basename 0 0 0 0 []

/-- `was_recently_downloaded` (local_cache.c:337):
`(node->flags & CNF_DIRECT) && (startup_time <= node->ts_attempt)`. -/
def was_recently_downloaded (startup : Int) (node : CacheNode) : Bool :=
  hasFlag node.flags CNF_DIRECT && decide (startup ≤ node.ts_attempt)

/-- `HASH_FIND_STR(node->children, token, child)`. -/
def findChild : List CacheNode → String → Option CacheNode
  | [], _ => none
  | c :: cs, t => if c.basename = t then some c else findChild cs t

/-- In-place mutation of the found child, seen functionally: replace the
first child whose basename is `t`. -/
def replaceChild : List CacheNode → String → CacheNode → List CacheNode
  | [], _, _ => []
  | c :: cs, t, c' => if c.basename = t then c' :: cs else c :: replaceChild cs t c'

/-- Pure descent along path segments (each segment must be an existing
child); locates the node a URI's local path designates. -/
def followPath : CacheNode → List String → Option CacheNode
  | node, [] => some node
  | node, t :: ts =>
    match findChild node.children t with
    | some c => followPath c ts
    | none => none

/-- The file-to-directory flip guard at the top of `cache_download`'s
loop (local_cache.c:387-391): if the node carries `CNF_FILE`, the on-disk
file is deleted (`delete_node_file`, a pure disk effect) and
`node->flags = 0`. -/
def fileReset (node : CacheNode) : CacheNode :=
  if hasFlag node.flags CNF_FILE then node.withFlags 0 else node

/-- The post-fetch update (local_cache.c:436-445): store the fetch result,
overwrite flags with `CNF_DIRECT` (plus `CNF_SUCCESS`, and `CNF_FILE` for
the non-recursive transport, on success), stamp `ts_attempt` (and
`ts_success` on success), and `drop_children`. -/
def applyFetch (recursive : Bool) (e now : Int) (n : CacheNode) : CacheNode :=
  .mk n.basename
    (if e = 0 then addFlag (addFlag CNF_DIRECT CNF_SUCCESS) (if recursive then 0 else CNF_FILE)
     else CNF_DIRECT)
    (if e = 0 then now else n.ts_success)
    now e []

/-- The child-creation chain (local_cache.c:396-401): when a segment has
no matching child, every remaining segment becomes a fresh node and the
deepest one is the fetch target. -/
def buildChain (recursive : Bool) (e now : Int) (t : String) : List String → CacheNode
  | [] => applyFetch recursive e now (newNode t)
  | u :: us => .mk t 0 0 0 0 [buildChain recursive e now u us]

/-- `cache_download` (local_cache.c:358-450) after the transport dispatch:
`recursive` is true for `UT_RSYNC` (root `rsync`), false for `UT_HTTPS`
(root `https`); `node` is the selected root; `tokens` are the `/`-separated
components of the local path after the first; `e` is the fetcher oracle's
result.  Returns (returned error, updated root, whether the fetcher ran). -/
def cache_download (recursive : Bool) (e now startup : Int) :
    CacheNode → List String → Int × CacheNode × Bool
  | node, [] =>
    if was_recently_downloaded startup node then (node.error, node, false)
    else (e, applyFetch recursive e now node, true)
  | node, t :: ts =>
    match findChild (fileReset node).children t with
    | none =>
      (e, (fileReset node).withChildren
        ((fileReset node).children ++ [buildChain recursive e now t ts]), true)
    | some child =>
      if recursive && was_recently_downloaded startup child && decide (child.error = 0) then
        (0, fileReset node, false)
      else
        ((cache_download recursive e now startup child ts).1,
         (fileReset node).withChildren
           (replaceChild (fileReset node).children t
             (cache_download recursive e now startup child ts).2.1),
         (cache_download recursive e now startup child ts).2.2)

example :
    (cache_download false 0 5 3 (newNode "https") ["h", "a", "b.cer"]).1 = 0 := by rfl

example :
    (cache_download false 0 5 3 (newNode "https") ["h", "a", "b.cer"]).2.2 = true := by rfl

example :
    followPath (cache_download false 0 5 3 (newNode "https") ["h", "a", "b.cer"]).2.1
      ["h", "a", "b.cer"]
      = some (.mk "b.cer" 11 5 5 0 []) := by rfl

/-! ### Small facts about flags, `fileReset`, `findChild`, `replaceChild` -/

@[simp] theorem fileReset_basename (n : CacheNode) : (fileReset n).basename = n.basename := by
  unfold fileReset; split <;> simp

@[simp] theorem fileReset_children (n : CacheNode) : (fileReset n).children = n.children := by
  unfold fileReset; split <;> simp

@[simp] theorem fileReset_error (n : CacheNode) : (fileReset n).error = n.error := by
  unfold fileReset; split <;> simp

@[simp] theorem fileReset_ts_attempt (n : CacheNode) : (fileReset n).ts_attempt = n.ts_attempt := by
  unfold fileReset; split <;> simp

theorem fileReset_no_file (n : CacheNode) : hasFlag (fileReset n).flags CNF_FILE = false := by
  unfold fileReset
  split
  · simp; decide
  · rename_i h; simpa using h

theorem fileReset_of_no_file (n : CacheNode) (h : hasFlag n.flags CNF_FILE = false) :
    fileReset n = n := by
  unfold fileReset
  simp [h]

theorem fileReset_flags (n : CacheNode) :
    (fileReset n).flags = 0 ∨ (fileReset n).flags = n.flags := by
  unfold fileReset; split
  · left; simp
  · right; rfl

theorem findChild_basename {cs : List CacheNode} {t : String} {c : CacheNode}
    (h : findChild cs t = some c) : c.basename = t := by
  induction cs with
  | nil => simp [findChild] at h
  | cons x xs ih =>
    unfold findChild at h
    split at h
    · cases h; assumption
    · exact ih h

theorem replaceChild_self {cs : List CacheNode} {t : String} {c : CacheNode}
    (h : findChild cs t = some c) : replaceChild cs t c = cs := by
  induction cs with
  | nil => simp [findChild] at h
  | cons x xs ih =>
    unfold findChild at h
    unfold replaceChild
    split at h
    · cases h; simp [*]
    · rename_i hx; rw [if_neg hx, ih h]

theorem findChild_replaceChild {cs : List CacheNode} {t : String} {c c' : CacheNode}
    (h : findChild cs t = some c) (hb : c'.basename = t) :
    findChild (replaceChild cs t c') t = some c' := by
  induction cs with
  | nil => simp [findChild] at h
  | cons x xs ih =>
    unfold findChild at h
    unfold replaceChild
    split at h
    · rename_i hx; rw [if_pos hx]; unfold findChild; rw [if_pos hb]
    · rename_i hx; rw [if_neg hx]; unfold findChild; rw [if_neg hx]; exact ih h

theorem findChild_cons (x : CacheNode) (xs : List CacheNode) (t : String) :
    findChild (x :: xs) t = if x.basename = t then some x else findChild xs t := rfl

theorem findChild_append_none {cs : List CacheNode} {t : String}
    (h : findChild cs t = none) (ds : List CacheNode) :
    findChild (cs ++ ds) t = findChild ds t := by
  induction cs with
  | nil => simp
  | cons x xs ih =>
    rw [findChild_cons] at h
    split at h
    · cases h
    · rename_i hx
      rw [List.cons_append, findChild_cons, if_neg hx]
      exact ih h

/-! ### Facts about `applyFetch` and `buildChain` -/

theorem applyFetch_fresh (recursive : Bool) (e now startup : Int) (n : CacheNode)
    (h : startup ≤ now) :
    was_recently_downloaded startup (applyFetch recursive e now n) = true := by
  unfold was_recently_downloaded applyFetch
  simp only [CacheNode.flags_mk, CacheNode.ts_attempt_mk, Bool.and_eq_true, decide_eq_true_eq]
  refine ⟨?_, h⟩
  by_cases he : e = 0 <;> cases recursive <;> simp [he] <;> decide

theorem applyFetch_flags (recursive : Bool) (e now : Int) (n : CacheNode) :
    (applyFetch recursive e now n).flags
      = (if e = 0 then
          (if recursive then CNF_DIRECT + CNF_SUCCESS
           else CNF_DIRECT + CNF_SUCCESS + CNF_FILE)
         else CNF_DIRECT) := by
  unfold applyFetch
  by_cases he : e = 0 <;> cases recursive <;> simp [he] <;> decide

@[simp] theorem applyFetch_error (recursive : Bool) (e now : Int) (n : CacheNode) :
    (applyFetch recursive e now n).error = e := rfl

@[simp] theorem applyFetch_ts_attempt (recursive : Bool) (e now : Int) (n : CacheNode) :
    (applyFetch recursive e now n).ts_attempt = now := rfl

@[simp] theorem applyFetch_basename (recursive : Bool) (e now : Int) (n : CacheNode) :
    (applyFetch recursive e now n).basename = n.basename := rfl

@[simp] theorem buildChain_basename (recursive : Bool) (e now : Int) (t : String)
    (ts : List String) : (buildChain recursive e now t ts).basename = t := by
  cases ts <;> rfl

theorem buildChain_fresh_error (recursive : Bool) (e now startup : Int) (t : String)
    (ts : List String)
    (h : was_recently_downloaded startup (buildChain recursive e now t ts) = true) :
    (buildChain recursive e now t ts).error = e := by
  cases ts with
  | nil => rfl
  | cons u us =>
    exfalso
    unfold buildChain was_recently_downloaded at h
    simp only [CacheNode.flags_mk, Bool.and_eq_true] at h
    have : hasFlag 0 CNF_DIRECT = false := by decide
    rw [this] at h
    exact Bool.false_ne_true h.1

theorem buildChain_followPath (recursive : Bool) (e now : Int) :
    ∀ (ts : List String) (t : String), ∃ name,
      followPath (buildChain recursive e now t ts) ts
        = some (applyFetch recursive e now (newNode name)) := by
  intro ts
  induction ts with
  | nil => intro t; exact ⟨t, rfl⟩
  | cons u us ih =>
    intro t
    obtain ⟨name, hn⟩ := ih u
    refine ⟨name, ?_⟩
    show followPath (.mk t 0 0 0 0 [buildChain recursive e now u us]) (u :: us) = _
    unfold followPath findChild
    simp only [CacheNode.children_mk, buildChain_basename, if_pos rfl]
    exact hn

/-! ### Unfolding equations for `cache_download` -/

theorem cache_download_nil (recursive : Bool) (e now startup : Int) (node : CacheNode) :
    cache_download recursive e now startup node []
      = if was_recently_downloaded startup node then (node.error, node, false)
        else (e, applyFetch recursive e now node, true) := rfl

theorem cache_download_cons (recursive : Bool) (e now startup : Int) (node : CacheNode)
    (t : String) (ts : List String) :
    cache_download recursive e now startup node (t :: ts)
      = match findChild (fileReset node).children t with
        | none =>
          (e, (fileReset node).withChildren
            ((fileReset node).children ++ [buildChain recursive e now t ts]), true)
        | some child =>
          if recursive && was_recently_downloaded startup child && decide (child.error = 0) then
            (0, fileReset node, false)
          else
            ((cache_download recursive e now startup child ts).1,
             (fileReset node).withChildren
               (replaceChild (fileReset node).children t
                 (cache_download recursive e now startup child ts).2.1),
             (cache_download recursive e now startup child ts).2.2) := rfl

theorem cache_download_basename (recursive : Bool) (e now startup : Int)
    (node : CacheNode) (ts : List String) :
    (cache_download recursive e now startup node ts).2.1.basename = node.basename := by
  cases ts with
  | nil =>
    rw [cache_download_nil]
    split <;> simp
  | cons t ts =>
    rw [cache_download_cons]
    cases hfc : findChild (fileReset node).children t with
    | none => simp
    | some child =>
      simp only []
      split <;> simp

/-- Re-descending a freshly created chain returns the original fetch
result without re-fetching and without modifying the chain. -/
theorem buildChain_redownload (recursive : Bool) (e₁ e₂ now₁ now₂ startup : Int)
    (h₁ : startup ≤ now₁) :
    ∀ (ts : List String) (t : String),
      cache_download recursive e₂ now₂ startup (buildChain recursive e₁ now₁ t ts) ts
        = (e₁, buildChain recursive e₁ now₁ t ts, false) := by
  intro ts
  induction ts with
  | nil =>
    intro t
    rw [show buildChain recursive e₁ now₁ t [] = applyFetch recursive e₁ now₁ (newNode t)
          from rfl,
        cache_download_nil, if_pos (applyFetch_fresh _ _ _ _ _ h₁)]
    simp
  | cons u us ih =>
    intro t
    rw [show buildChain recursive e₁ now₁ t (u :: us)
          = CacheNode.mk t 0 0 0 0 [buildChain recursive e₁ now₁ u us] from rfl]
    rw [cache_download_cons]
    have hnr : fileReset (CacheNode.mk t 0 0 0 0 [buildChain recursive e₁ now₁ u us])
        = CacheNode.mk t 0 0 0 0 [buildChain recursive e₁ now₁ u us] := by
      apply fileReset_of_no_file
      simp only [CacheNode.flags_mk]
      decide
    rw [hnr]
    have hfind : findChild
        (CacheNode.mk t 0 0 0 0 [buildChain recursive e₁ now₁ u us]).children u
        = some (buildChain recursive e₁ now₁ u us) := by
      simp [findChild]
    simp only [hfind]
    by_cases hhit : (recursive
        && was_recently_downloaded startup (buildChain recursive e₁ now₁ u us)
        && decide ((buildChain recursive e₁ now₁ u us).error = 0)) = true
    · rw [if_pos hhit]
      have hparts : (recursive = true
          ∧ was_recently_downloaded startup (buildChain recursive e₁ now₁ u us) = true)
          ∧ (buildChain recursive e₁ now₁ u us).error = 0 := by
        simpa [Bool.and_eq_true] using hhit
      have he₁ : e₁ = 0 := by
        rw [← buildChain_fresh_error recursive e₁ now₁ startup u us hparts.1.2]
        exact hparts.2
      rw [he₁]
    · rw [if_neg hhit]
      simp [ih u, replaceChild]

/-- Main induction behind the freshness law: re-running `cache_download`
on the same token list over the tree the first call produced returns the
first call's code, performs no fetch, and leaves the tree unchanged; and
(second conjunct) when the first call's top node comes out fresh with a
zero error although the input node was not fresh-with-zero-error, the
first call returned 0. -/
theorem cache_download_second_aux (recursive : Bool) (e₁ e₂ now₁ now₂ startup : Int)
    (h₁ : startup ≤ now₁) :
    ∀ (ts : List String) (node : CacheNode),
      cache_download recursive e₂ now₂ startup
          (cache_download recursive e₁ now₁ startup node ts).2.1 ts
        = ((cache_download recursive e₁ now₁ startup node ts).1,
           (cache_download recursive e₁ now₁ startup node ts).2.1, false)
      ∧ ((was_recently_downloaded startup node = true → ¬node.error = 0) →
          was_recently_downloaded startup
              (cache_download recursive e₁ now₁ startup node ts).2.1 = true →
          (cache_download recursive e₁ now₁ startup node ts).2.1.error = 0 →
          (cache_download recursive e₁ now₁ startup node ts).1 = 0) := by
  intro ts
  induction ts with
  | nil =>
    intro node
    by_cases hf : was_recently_downloaded startup node = true
    · have E1 : cache_download recursive e₁ now₁ startup node [] = (node.error, node, false) := by
        rw [cache_download_nil, if_pos hf]
      rw [E1]
      refine ⟨?_, ?_⟩
      · show cache_download recursive e₂ now₂ startup node [] = (node.error, node, false)
        rw [cache_download_nil, if_pos hf]
      · intro _ _ he
        exact he
    · have E1 : cache_download recursive e₁ now₁ startup node []
          = (e₁, applyFetch recursive e₁ now₁ node, true) := by
        rw [cache_download_nil, if_neg hf]
      rw [E1]
      refine ⟨?_, ?_⟩
      · show cache_download recursive e₂ now₂ startup (applyFetch recursive e₁ now₁ node) []
            = (e₁, applyFetch recursive e₁ now₁ node, false)
        rw [cache_download_nil, if_pos (applyFetch_fresh _ _ _ _ _ h₁)]
        simp
      · intro _ _ he
        simpa using he
  | cons t ts ih =>
    intro node
    cases hfc : findChild (fileReset node).children t with
    | none =>
      have E1 : cache_download recursive e₁ now₁ startup node (t :: ts)
          = (e₁, (fileReset node).withChildren ((fileReset node).children
              ++ [buildChain recursive e₁ now₁ t ts]), true) := by
        rw [cache_download_cons]; simp only [hfc]
      rw [E1]
      set m := (fileReset node).withChildren
          ((fileReset node).children ++ [buildChain recursive e₁ now₁ t ts]) with hm
      have hmflags : m.flags = (fileReset node).flags := by rw [hm]; simp
      have hmts : m.ts_attempt = node.ts_attempt := by rw [hm]; simp
      have hmerr : m.error = node.error := by rw [hm]; simp
      have hmr : fileReset m = m :=
        fileReset_of_no_file m (by rw [hmflags]; exact fileReset_no_file node)
      have hfind : findChild m.children t = some (buildChain recursive e₁ now₁ t ts) := by
        rw [hm]
        simp only [CacheNode.withChildren_def, CacheNode.children_mk]
        rw [findChild_append_none hfc]
        simp [findChild]
      refine ⟨?_, ?_⟩
      · show cache_download recursive e₂ now₂ startup m (t :: ts) = (e₁, m, false)
        rw [cache_download_cons, hmr]
        simp only [hfind]
        by_cases hhit : (recursive
            && was_recently_downloaded startup (buildChain recursive e₁ now₁ t ts)
            && decide ((buildChain recursive e₁ now₁ t ts).error = 0)) = true
        · rw [if_pos hhit]
          have hparts : (recursive = true
              ∧ was_recently_downloaded startup (buildChain recursive e₁ now₁ t ts) = true)
              ∧ (buildChain recursive e₁ now₁ t ts).error = 0 := by
            simpa [Bool.and_eq_true] using hhit
          have he₁ : e₁ = 0 := by
            rw [← buildChain_fresh_error recursive e₁ now₁ startup t ts hparts.1.2]
            exact hparts.2
          rw [he₁]
        · rw [if_neg hhit]
          rw [buildChain_redownload recursive e₁ e₂ now₁ now₂ startup h₁ ts t]
          show (e₁, m.withChildren (replaceChild m.children t
              (buildChain recursive e₁ now₁ t ts)), false) = (e₁, m, false)
          rw [replaceChild_self hfind, CacheNode.withChildren_self]
      · intro hi hfm he
        have hfm' : was_recently_downloaded startup m = true := hfm
        have he' : m.error = 0 := he
        show e₁ = 0
        exfalso
        rcases fileReset_flags node with h0 | hsame
        · have hmf : was_recently_downloaded startup m = false := by
            unfold was_recently_downloaded
            rw [hmflags, h0]
            rw [show hasFlag 0 CNF_DIRECT = false from by decide]
            simp
          rw [hmf] at hfm'
          simp at hfm'
        · have hwn : was_recently_downloaded startup node = true := by
            unfold was_recently_downloaded at hfm' ⊢
            rw [hmflags, hsame, hmts] at hfm'
            exact hfm'
          exact hi hwn (by rw [← hmerr]; exact he')
    | some child =>
      by_cases hhit1 : (recursive && was_recently_downloaded startup child
          && decide (child.error = 0)) = true
      · have E1 : cache_download recursive e₁ now₁ startup node (t :: ts)
            = (0, fileReset node, false) := by
          rw [cache_download_cons]; simp only [hfc]; rw [if_pos hhit1]
        rw [E1]
        refine ⟨?_, ?_⟩
        · show cache_download recursive e₂ now₂ startup (fileReset node) (t :: ts)
              = (0, fileReset node, false)
          have hrr : fileReset (fileReset node) = fileReset node :=
            fileReset_of_no_file _ (fileReset_no_file node)
          rw [cache_download_cons, hrr]
          simp only [hfc]
          rw [if_pos hhit1]
        · intro _ _ _
          rfl
      · have E1 : cache_download recursive e₁ now₁ startup node (t :: ts)
            = ((cache_download recursive e₁ now₁ startup child ts).1,
               (fileReset node).withChildren (replaceChild (fileReset node).children t
                 (cache_download recursive e₁ now₁ startup child ts).2.1),
               (cache_download recursive e₁ now₁ startup child ts).2.2) := by
          rw [cache_download_cons]; simp only [hfc]; rw [if_neg hhit1]
        obtain ⟨ihA, ihB⟩ := ih child
        rw [E1]
        set r := cache_download recursive e₁ now₁ startup child ts with hr
        set m := (fileReset node).withChildren
            (replaceChild (fileReset node).children t r.2.1) with hm
        have hmflags : m.flags = (fileReset node).flags := by rw [hm]; simp
        have hmts : m.ts_attempt = node.ts_attempt := by rw [hm]; simp
        have hmerr : m.error = node.error := by rw [hm]; simp
        have hmr : fileReset m = m :=
          fileReset_of_no_file m (by rw [hmflags]; exact fileReset_no_file node)
        have hbase : r.2.1.basename = t := by
          rw [hr, cache_download_basename]
          exact findChild_basename hfc
        have hfind : findChild m.children t = some r.2.1 := by
          rw [hm]
          simp only [CacheNode.withChildren_def, CacheNode.children_mk]
          exact findChild_replaceChild hfc hbase
        refine ⟨?_, ?_⟩
        · show cache_download recursive e₂ now₂ startup m (t :: ts) = (r.1, m, false)
          rw [cache_download_cons, hmr]
          simp only [hfind]
          by_cases hhit2 : (recursive && was_recently_downloaded startup r.2.1
              && decide (r.2.1.error = 0)) = true
          · rw [if_pos hhit2]
            have hparts : (recursive = true
                ∧ was_recently_downloaded startup r.2.1 = true)
                ∧ r.2.1.error = 0 := by simpa [Bool.and_eq_true] using hhit2
            have h0 : r.1 = 0 := by
              apply ihB ?_ hparts.1.2 hparts.2
              intro hwc hce
              exact hhit1 (by rw [hparts.1.1, hwc]; simp [hce])
            rw [h0]
          · rw [if_neg hhit2]
            rw [ihA]
            show (r.1, m.withChildren (replaceChild m.children t r.2.1), false)
                = (r.1, m, false)
            rw [replaceChild_self hfind, CacheNode.withChildren_self]
        · intro hi hfm he
          have hfm' : was_recently_downloaded startup m = true := hfm
          have he' : m.error = 0 := he
          show r.1 = 0
          exfalso
          rcases fileReset_flags node with h0 | hsame
          · have hmf : was_recently_downloaded startup m = false := by
              unfold was_recently_downloaded
              rw [hmflags, h0]
              rw [show hasFlag 0 CNF_DIRECT = false from by decide]
              simp
            rw [hmf] at hfm'
            simp at hfm'
          · have hwn : was_recently_downloaded startup node = true := by
              unfold was_recently_downloaded at hfm' ⊢
              rw [hmflags, hsame, hmts] at hfm'
              exact hfm'
            exact hi hwn (by rw [← hmerr]; exact he')

theorem followPath_cons (node : CacheNode) (t : String) (ts : List String) :
    followPath node (t :: ts)
      = match findChild node.children t with
        | some c => followPath c ts
        | none => none := rfl

/-- When `cache_download` ran the fetcher, the returned code is the fetch
result and the deepest node of the walked path is exactly the
`applyFetch` image of some node (the fetch target). -/
theorem cache_download_fetch_spec (recursive : Bool) (e now startup : Int) :
    ∀ (ts : List String) (node : CacheNode),
      (cache_download recursive e now startup node ts).2.2 = true →
      (cache_download recursive e now startup node ts).1 = e
      ∧ ∃ pre, followPath (cache_download recursive e now startup node ts).2.1 ts
          = some (applyFetch recursive e now pre) := by
  intro ts
  induction ts with
  | nil =>
    intro node hf
    by_cases hw : was_recently_downloaded startup node = true
    · rw [cache_download_nil, if_pos hw] at hf
      simp at hf
    · rw [cache_download_nil, if_neg hw]
      exact ⟨rfl, node, rfl⟩
  | cons t ts ih =>
    intro node hf
    cases hfc : findChild (fileReset node).children t with
    | none =>
      have E1 : cache_download recursive e now startup node (t :: ts)
          = (e, (fileReset node).withChildren ((fileReset node).children
              ++ [buildChain recursive e now t ts]), true) := by
        rw [cache_download_cons]; simp only [hfc]
      rw [E1]
      refine ⟨rfl, ?_⟩
      obtain ⟨name, hn⟩ := buildChain_followPath recursive e now ts t
      refine ⟨newNode name, ?_⟩
      have hfind : findChild ((fileReset node).children
          ++ [buildChain recursive e now t ts]) t
          = some (buildChain recursive e now t ts) := by
        rw [findChild_append_none hfc]; simp [findChild]
      rw [followPath_cons]
      simp only [CacheNode.withChildren_def, CacheNode.children_mk, hfind]
      exact hn
    | some child =>
      by_cases hhit : (recursive && was_recently_downloaded startup child
          && decide (child.error = 0)) = true
      · have E1 : cache_download recursive e now startup node (t :: ts)
            = (0, fileReset node, false) := by
          rw [cache_download_cons]; simp only [hfc]; rw [if_pos hhit]
        rw [E1] at hf
        simp at hf
      · have E1 : cache_download recursive e now startup node (t :: ts)
            = ((cache_download recursive e now startup child ts).1,
               (fileReset node).withChildren (replaceChild (fileReset node).children t
                 (cache_download recursive e now startup child ts).2.1),
               (cache_download recursive e now startup child ts).2.2) := by
          rw [cache_download_cons]; simp only [hfc]; rw [if_neg hhit]
        rw [E1] at hf ⊢
        obtain ⟨h1, pre, hp⟩ := ih child hf
        refine ⟨h1, pre, ?_⟩
        have hbase : (cache_download recursive e now startup child ts).2.1.basename = t := by
          rw [cache_download_basename]
          exact findChild_basename hfc
        have hfind : findChild (replaceChild (fileReset node).children t
            (cache_download recursive e now startup child ts).2.1) t
            = some (cache_download recursive e now startup child ts).2.1 :=
          findChild_replaceChild hfc hbase
        rw [followPath_cons]
        simp only [CacheNode.withChildren_def, CacheNode.children_mk, hfind]
        exact hp

/-- C1 (freshness law): a second `cache_download` of the same URI in the
same run (over the tree state the first call produced, with
`startup_time ≤ ts` of the first call) returns exactly the first call's
code, performs no fetch, and leaves the tree unchanged; moreover, when
the first call invoked the fetcher it left the URI's deepest node fresh
(`DIRECT` set, `startup_time ≤ ts_attempt`) with the returned code stored
in `node.error` — which is what the second call re-returns. -/
theorem freshness_second_download (recursive : Bool) (e₁ e₂ now₁ now₂ startup : Int)
    (node : CacheNode) (ts : List String) (h₁ : startup ≤ now₁) :
    cache_download recursive e₂ now₂ startup
        (cache_download recursive e₁ now₁ startup node ts).2.1 ts
      = ((cache_download recursive e₁ now₁ startup node ts).1,
         (cache_download recursive e₁ now₁ startup node ts).2.1, false)
    ∧ ((cache_download recursive e₁ now₁ startup node ts).2.2 = true →
        ∃ d, followPath (cache_download recursive e₁ now₁ startup node ts).2.1 ts = some d
          ∧ was_recently_downloaded startup d = true
          ∧ d.error = (cache_download recursive e₁ now₁ startup node ts).1) := by
  refine ⟨(cache_download_second_aux recursive e₁ e₂ now₁ now₂ startup h₁ ts node).1, ?_⟩
  intro hf
  obtain ⟨h1, pre, hp⟩ := cache_download_fetch_spec recursive e₁ now₁ startup ts node hf
  refine ⟨applyFetch recursive e₁ now₁ pre, hp, applyFetch_fresh _ _ _ _ _ h₁, ?_⟩
  rw [h1]
  simp

theorem freshness_second_download_witness :
    cache_download false 9 6 3 (cache_download false 0 5 3 (newNode "https") ["h"]).2.1 ["h"]
      = ((cache_download false 0 5 3 (newNode "https") ["h"]).1,
         (cache_download false 0 5 3 (newNode "https") ["h"]).2.1, false) :=
  (freshness_second_download false 0 9 5 6 3 (newNode "https") ["h"] (by decide)).1

/-- C2 (file-sync ancestor coverage): on the recursive (rsync) transport,
whenever the descent reaches an existing child that is fresh with a zero
stored error — in particular any descendant of a path successfully
fetched earlier in this run — `cache_download` returns 0 immediately and
never invokes the fetcher. -/
theorem rsync_ancestor_shortcut (e now startup : Int) :
    ∀ (p : List String) (root m c : CacheNode) (t : String) (rest : List String),
      followPath root p = some m →
      findChild m.children t = some c →
      was_recently_downloaded startup c = true →
      c.error = 0 →
      (cache_download true e now startup root (p ++ t :: rest)).1 = 0
      ∧ (cache_download true e now startup root (p ++ t :: rest)).2.2 = false := by
  intro p
  induction p with
  | nil =>
    intro root m c t rest hfp hfc hw he
    have hm : root = m := by simpa [followPath] using hfp
    subst hm
    rw [List.nil_append, cache_download_cons]
    have hfc' : findChild (fileReset root).children t = some c := by
      rw [fileReset_children]; exact hfc
    simp only [hfc']
    have hcond : (true && was_recently_downloaded startup c
        && decide (c.error = 0)) = true := by
      rw [hw]; simp [he]
    rw [if_pos hcond]
    exact ⟨rfl, rfl⟩
  | cons q p' ihp =>
    intro root m c t rest hfp hfc hw he
    rw [followPath_cons] at hfp
    cases hq : findChild root.children q with
    | none => rw [hq] at hfp; cases hfp
    | some mq =>
      rw [hq] at hfp
      rw [List.cons_append, cache_download_cons]
      have hq' : findChild (fileReset root).children q = some mq := by
        rw [fileReset_children]; exact hq
      simp only [hq']
      by_cases hhit : (true && was_recently_downloaded startup mq
          && decide (mq.error = 0)) = true
      · rw [if_pos hhit]
        exact ⟨rfl, rfl⟩
      · rw [if_neg hhit]
        exact ihp mq m c t rest hfp hfc hw he

theorem rsync_ancestor_shortcut_witness :
    (cache_download true 7 6 3
        (CacheNode.mk "rsync" 0 0 0 0 [CacheNode.mk "r" 0 0 0 0
          [CacheNode.mk "p" 1 4 4 0 []]])
        (["r"] ++ "p" :: ["q"])).1 = 0
    ∧ (cache_download true 7 6 3
        (CacheNode.mk "rsync" 0 0 0 0 [CacheNode.mk "r" 0 0 0 0
          [CacheNode.mk "p" 1 4 4 0 []]])
        (["r"] ++ "p" :: ["q"])).2.2 = false :=
  rsync_ancestor_shortcut 7 6 3 ["r"]
    (CacheNode.mk "rsync" 0 0 0 0 [CacheNode.mk "r" 0 0 0 0
      [CacheNode.mk "p" 1 4 4 0 []]])
    (CacheNode.mk "r" 0 0 0 0 [CacheNode.mk "p" 1 4 4 0 []])
    (CacheNode.mk "p" 1 4 4 0 []) "p" ["q"] (by rfl) (by rfl) (by decide) (by decide)

/-- C3 (fetch postcondition): whenever `cache_download` runs the fetcher,
the target node afterwards stores the fetch result in `error`, has
`CNF_DIRECT` set and `ts_attempt` equal to the fetch time; on success it
additionally has `CNF_SUCCESS` (plus `CNF_FILE` for the non-recursive
HTTP transport) and `ts_success = ts_attempt`. -/
theorem fetch_postcondition (recursive : Bool) (e now startup : Int)
    (node : CacheNode) (ts : List String)
    (hf : (cache_download recursive e now startup node ts).2.2 = true) :
    (cache_download recursive e now startup node ts).1 = e
    ∧ ∃ d, followPath (cache_download recursive e now startup node ts).2.1 ts = some d
        ∧ d.error = e
        ∧ hasFlag d.flags CNF_DIRECT = true
        ∧ d.ts_attempt = now
        ∧ (e = 0 →
            hasFlag d.flags CNF_SUCCESS = true
            ∧ (recursive = false → hasFlag d.flags CNF_FILE = true)
            ∧ d.ts_success = now) := by
  obtain ⟨h1, pre, hp⟩ := cache_download_fetch_spec recursive e now startup ts node hf
  refine ⟨h1, applyFetch recursive e now pre, hp, rfl, ?_, rfl, ?_⟩
  · rw [applyFetch_flags]
    by_cases he : e = 0 <;> cases recursive <;> simp [he] <;> decide
  · intro he0
    refine ⟨?_, ?_, ?_⟩
    · rw [applyFetch_flags, if_pos he0]
      cases recursive <;> simp <;> decide
    · intro hrec
      rw [applyFetch_flags, if_pos he0, hrec]
      simp
      decide
    · show (if e = 0 then now else pre.ts_success) = now
      rw [if_pos he0]

theorem fetch_postcondition_witness :
    (cache_download false 0 5 3 (newNode "https") ["h", "a", "b.cer"]).1 = 0
    ∧ ∃ d, followPath (cache_download false 0 5 3 (newNode "https") ["h", "a", "b.cer"]).2.1
          ["h", "a", "b.cer"] = some d
        ∧ d.error = 0
        ∧ hasFlag d.flags CNF_DIRECT = true
        ∧ d.ts_attempt = 5
        ∧ ((0 : Int) = 0 →
            hasFlag d.flags CNF_SUCCESS = true
            ∧ (false = false → hasFlag d.flags CNF_FILE = true)
            ∧ d.ts_success = 5) :=
  fetch_postcondition false 0 5 3 (newNode "https") ["h", "a", "b.cer"] (by rfl)

/-- C10 (flags are overwritten, not extended): every fetch performed by
`cache_download` leaves the target node's flag bitset equal to exactly
`CNF_DIRECT` on failure, and exactly `CNF_DIRECT + CNF_SUCCESS`
(plus `CNF_FILE` for HTTP) on success — so a node that previously carried
`CNF_SUCCESS`/`CNF_FILE` loses them on a failed re-fetch. -/
theorem fetch_overwrites_flags (recursive : Bool) (e now startup : Int)
    (node : CacheNode) (ts : List String)
    (hf : (cache_download recursive e now startup node ts).2.2 = true) :
    ∃ d, followPath (cache_download recursive e now startup node ts).2.1 ts = some d
      ∧ d.flags = (if e = 0 then
            (if recursive then CNF_DIRECT + CNF_SUCCESS
             else CNF_DIRECT + CNF_SUCCESS + CNF_FILE)
          else CNF_DIRECT) := by
  obtain ⟨h1, pre, hp⟩ := cache_download_fetch_spec recursive e now startup ts node hf
  exact ⟨applyFetch recursive e now pre, hp, applyFetch_flags recursive e now pre⟩

theorem fetch_overwrites_flags_witness :
    ∃ d, followPath (cache_download false 7 6 3
          (CacheNode.mk "x.cer" 11 2 2 0 []) []).2.1 [] = some d
      ∧ d.flags = (if (7 : Int) = 0 then
            (if false then CNF_DIRECT + CNF_SUCCESS
             else CNF_DIRECT + CNF_SUCCESS + CNF_FILE)
          else CNF_DIRECT) :=
  fetch_overwrites_flags false 7 6 3 (CacheNode.mk "x.cer" 11 2 2 0 []) [] (by rfl)

/-! ### Cleanup sweeper (`cleanup_recursive`, local_cache.c:470-583)

The on-disk tree is modelled explicitly: `FsEntry.file` is a regular
file (`S_ISREG`), `FsEntry.dir` a directory (`S_ISDIR`) with its
`readdir` stream, `FsEntry.other` any other file type.  `stat` failing
with `ENOENT` is the `none` case of the `Option FsEntry` argument.
The `metadata.json` serialization performed afterwards by
`cache_cleanup` is an I/O effect outside the sweep and is not modelled. -/

mutual
inductive FsEntry : Type where
  | file : FsEntry
  | other : FsEntry
  | dir (entries : FsEntries) : FsEntry
inductive FsEntries : Type where
  | nil : FsEntries
  | cons (name : String) (e : FsEntry) (rest : FsEntries) : FsEntries
end

/-- C `flags &= ~bit` for `bit` a power of two. -/
def rmFlag (flags bit : Int) : Int :=
  if hasFlag flags bit then flags - bit else flags

/-- `delete_node(node, force=false)`: destroys the whole subtree but
keeps the node itself (emptied) when it is a root. -/
def delete_node (isRoot : Bool) (node : CacheNode) : Option CacheNode :=
  if isRoot then some (node.withChildren []) else none

/-- Lookup in the per-directory recursion results (keyed by entry name). -/
def lookupResult : List (String × Option CacheNode) → String → Option (Option CacheNode)
  | [], _ => none
  | (n, r) :: rest, name => if n = name then some r else lookupResult rest name

mutual
/-- `cleanup_recursive` after a successful `stat`: keep the node and its
subtree untouched when it is fresh with zero error; delete node and file
when the path is a regular file or another non-directory type; for a
directory, recurse over its entries (marking matched children `CNF_FOUND`),
drop on-disk entries with no node and node children with no on-disk entry,
clear `CNF_FOUND` on survivors, and delete the emptied non-root node. -/
def cleanup_node (startup : Int) (isRoot : Bool) (node : CacheNode) (e : FsEntry) :
    Option CacheNode × Option FsEntry :=
  if was_recently_downloaded startup node && decide (node.error = 0) then
    (some node, some e)
  else
    match e with
    | .file => (delete_node isRoot node, none)
    | .other => (delete_node isRoot node, none)
    | .dir entries =>
      let pr := cleanup_entries startup node.children entries
      let newChildren := node.children.filterMap (fun c =>
        match lookupResult pr.2 c.basename with
        | some (some c') => some (c'.withFlags (rmFlag c'.flags CNF_FOUND))
        | some none => none
        | none => none)
      if newChildren.isEmpty && !isRoot then (none, none)
      else (some (node.withChildren newChildren), some (.dir pr.1))

/-- The `FOREACH_DIR_FILE` loop: for each directory entry, if a child
node with that basename exists, set `CNF_FOUND` on it and recurse
(collecting the surviving on-disk entry and the child's fate); otherwise
`rm -rf` the entry from disk. -/
def cleanup_entries (startup : Int) (children : List CacheNode) :
    FsEntries → FsEntries × List (String × Option CacheNode)
  | .nil => (.nil, [])
  | .cons name e rest =>
    match findChild children name with
    | some c =>
      match cleanup_node startup false (c.withFlags (addFlag c.flags CNF_FOUND)) e with
      | (c', some e') =>
        ((cleanup_entries startup children rest).1.cons name e',
         (name, c') :: (cleanup_entries startup children rest).2)
      | (c', none) =>
        ((cleanup_entries startup children rest).1,
         (name, c') :: (cleanup_entries startup children rest).2)
    | none =>
      cleanup_entries startup children rest
end

/-- `cleanup_recursive` (local_cache.c:470-583) including the initial
`stat`: a missing path means the node is orphaned and is deleted
(roots survive emptied). -/
def cleanup_recursive (startup : Int) (isRoot : Bool) (node : CacheNode) :
    Option FsEntry → Option CacheNode × Option FsEntry
  | none => (delete_node isRoot node, none)
  | some e => cleanup_node startup isRoot node e

/-- `cache_cleanup` (local_cache.c:740-761): sweep both roots against
their on-disk trees.  (The subsequent `write_metadata_json` is omitted:
it only serializes the surviving tree to disk.) -/
def cache_cleanup (startup : Int) (rsync https : CacheNode)
    (fsRsync fsHttps : Option FsEntry) :
    (Option CacheNode × Option FsEntry) × (Option CacheNode × Option FsEntry) :=
  (cleanup_recursive startup true rsync fsRsync,
   cleanup_recursive startup true https fsHttps)

example :
    cache_cleanup 3 (CacheNode.mk "rsync" 0 0 0 0 [CacheNode.mk "h" 1 0 10 5 []])
        (newNode "https") (some (FsEntry.dir .nil)) (some (FsEntry.dir .nil))
      = ((some (CacheNode.mk "rsync" 0 0 0 0 []), some (FsEntry.dir .nil)),
         (some (CacheNode.mk "https" 0 0 0 0 []), some (FsEntry.dir .nil))) := by rfl

/-- C6 (amended: sweep keeps active nodes untouched *when their on-disk
path exists*): if `stat` succeeds on the node's path and the node is
fresh with last error zero, the sweep keeps the node, its entire subtree
and its on-disk tree completely unchanged. -/
theorem sweep_keeps_active_node (startup : Int) (isRoot : Bool) (node : CacheNode)
    (e : FsEntry) (hw : was_recently_downloaded startup node = true)
    (he : node.error = 0) :
    cleanup_recursive startup isRoot node (some e) = (some node, some e) := by
  show cleanup_node startup isRoot node e = (some node, some e)
  have hc : (was_recently_downloaded startup node && decide (node.error = 0)) = true := by
    rw [hw]; simp [he]
  unfold cleanup_node
  rw [if_pos hc]

theorem sweep_keeps_active_node_witness :
    cleanup_recursive 3 false (CacheNode.mk "h" 1 5 5 0 [CacheNode.mk "k" 9 9 9 9 []])
        (some (FsEntry.dir (.cons "z" .file .nil)))
      = (some (CacheNode.mk "h" 1 5 5 0 [CacheNode.mk "k" 9 9 9 9 []]),
         some (FsEntry.dir (.cons "z" .file .nil))) :=
  sweep_keeps_active_node 3 false (CacheNode.mk "h" 1 5 5 0 [CacheNode.mk "k" 9 9 9 9 []])
    (FsEntry.dir (.cons "z" .file .nil)) (by decide) (by decide)

/-- C6 counterexample: a node that is fresh with last error zero but
whose on-disk path is gone (`stat` = `ENOENT`) is *deleted* by the sweep
— the ENOENT branch of `cleanup_recursive` runs before the freshness
check, so the claim's unconditional "retains the node" is false. -/
theorem missing_path_fresh_node_deleted :
    was_recently_downloaded 3 (CacheNode.mk "h" 1 5 5 0 []) = true
    ∧ (CacheNode.mk "h" 1 5 5 0 []).error = 0
    ∧ cleanup_recursive 3 false (CacheNode.mk "h" 1 5 5 0 []) none = (none, none) :=
  ⟨by decide, rfl, rfl⟩

/-- C5 (amended: fetch errors do *not* survive the sweep): a non-root
node that is fresh but holds a nonzero error is deleted by
`cleanup_recursive`, both when its path is missing and when its path is
a regular file — the keep branch requires `error == 0`. -/
theorem fresh_error_node_not_kept (startup : Int) (node : CacheNode)
    (hw : was_recently_downloaded startup node = true) (he : ¬node.error = 0) :
    cleanup_recursive startup false node none = (none, none)
    ∧ cleanup_recursive startup false node (some .file) = (none, none) := by
  constructor
  · rfl
  · show cleanup_node startup false node .file = (none, none)
    have hc : ¬((was_recently_downloaded startup node && decide (node.error = 0)) = true) := by
      rw [hw]; simp [he]
    unfold cleanup_node
    rw [if_neg hc]
    rfl

theorem fresh_error_node_not_kept_witness :
    cleanup_recursive 3 false (CacheNode.mk "h" 1 0 10 5 []) none = (none, none)
    ∧ cleanup_recursive 3 false (CacheNode.mk "h" 1 0 10 5 []) (some .file)
      = (none, none) :=
  fresh_error_node_not_kept 3 (CacheNode.mk "h" 1 0 10 5 []) (by decide) (by decide)

/-- C5 counterexample: node `h` made a direct fetch attempt this run
(`DIRECT`, `startup ≤ ts_attempt`) which failed with error 5; the failed
fetch left no file on disk, so after `cache_cleanup` the node and its
stored error are gone (the surviving `rsync` root has no children). -/
theorem error_node_swept_counterexample :
    was_recently_downloaded 3 (CacheNode.mk "h" 1 0 10 5 []) = true
    ∧ (CacheNode.mk "h" 1 0 10 5 []).error = 5
    ∧ cache_cleanup 3 (CacheNode.mk "rsync" 0 0 0 0 [CacheNode.mk "h" 1 0 10 5 []])
        (newNode "https") (some (FsEntry.dir .nil)) (some (FsEntry.dir .nil))
      = ((some (CacheNode.mk "rsync" 0 0 0 0 []), some (FsEntry.dir .nil)),
         (some (CacheNode.mk "https" 0 0 0 0 []), some (FsEntry.dir .nil))) :=
  ⟨by decide, rfl, rfl⟩

/-! ### Metadata codec (`json2node` / `load_metadata_json`,
local_cache.c:129-288) and `cache_prepare` (local_cache.c:290-299)

JSON documents (jansson `json_t`) are modelled by `Json`.  The libc
timestamp parser used by `json_tt_value` (`strptime("%FT%T%z")` followed
by `mktime`, both external to the repository) is an oracle parameter
`ptime : String → Option Int`.  `json2node`'s recursion over the nested
document is driven by a fuel argument seeded with `jsonCount`, an upper
bound on the recursion depth, so the zero-fuel case is unreachable. -/

mutual
inductive Json : Type where
  | jnull : Json
  | jbool (b : Bool) : Json
  | jint (n : Int) : Json
  | jstr (s : String) : Json
  | jarr (elems : JsonList) : Json
  | jobj (fields : JsonObj) : Json
inductive JsonList : Type where
  | nil : JsonList
  | cons (hd : Json) (tl : JsonList) : JsonList
inductive JsonObj : Type where
  | nil : JsonObj
  | cons (key : String) (val : Json) (tl : JsonObj) : JsonObj
end

mutual
def jsonCount : Json → Nat
  | .jarr l => 1 + jsonListCount l
  | .jobj o => 1 + jsonObjCount o
  | _ => 1
def jsonListCount : JsonList → Nat
  | .nil => 1
  | .cons h t => 1 + jsonCount h + jsonListCount t
def jsonObjCount : JsonObj → Nat
  | .nil => 1
  | .cons _ v t => 1 + jsonCount v + jsonObjCount t
end

def objGetFields : JsonObj → String → Option Json
  | .nil, _ => none
  | .cons k v t, key => if k = key then some v else objGetFields t key

/-- jansson `json_object_get` (returns `NULL` on non-objects). -/
def objGet : Json → String → Option Json
  | .jobj fields, key => objGetFields fields key
  | _, _ => none

/-- jansson `json_string_value` (returns `NULL` on non-strings). -/
def json_string_value : Json → Option String
  | .jstr s => some s
  | _ => none

/-- `json_tt_value` (local_cache.c:129-150): `NULL` json, non-string
json, and `strptime`/`mktime` failure all yield the error (-1) case. -/
def json_tt_value (ptime : String → Option Int) : Option Json → Option Int
  | none => none
  | some j =>
    match json_string_value j with
    | none => none
    | some s => ptime s

mutual
/-- `json2node` (local_cache.c:152-223).  Field order and failure
behavior follow the source: a malformed `basename`, `flags`,
`ts_success`, `ts_attempt` or `error`, a non-array `children`, or a
failing child all `goto cancel`, which discards this node and its
already-loaded subtree (`delete_node(node, true)` = returning `none`). -/
def json2nodeF (ptime : String → Option Int) : Nat → Json → Option CacheNode
  | 0, _ => none
  | fuel+1, j =>
    match json_string_value ((objGet j "basename").getD .jnull) with
    | none => none
    | some basename =>
      match objGet j "flags" with
      | some (.jint flags) =>
        (match json_tt_value ptime (objGet j "ts_success") with
         | none => none
         | some ts_s =>
           match json_tt_value ptime (objGet j "ts_attempt") with
           | none => none
           | some ts_a =>
             match objGet j "error" with
             | some (.jint err) =>
               (match objGet j "children" with
                | none => some (.mk basename flags ts_s ts_a err [])
                | some (.jarr elems) =>
                  (match json2listF ptime fuel elems with
                   | none => none
                   | some children => some (.mk basename flags ts_s ts_a err children))
                | some _ => none)
             | _ => none)
      | _ => none

/-- The `children` loop of `json2node`: each element is parsed in order;
a failing element cancels the parent. -/
def json2listF (ptime : String → Option Int) : Nat → JsonList → Option (List CacheNode)
  | _, .nil => some []
  | 0, .cons _ _ => none
  | fuel+1, .cons h t =>
    match json2nodeF ptime fuel h with
    | none => none
    | some c =>
      match json2listF ptime fuel t with
      | none => none
      | some cs => some (c :: cs)
end

def json2node (ptime : String → Option Int) (j : Json) : Option CacheNode :=
  json2nodeF ptime (jsonCount j) j

/-- Process-wide cache state: the two root pointers and `startup_time`. -/
structure CacheState where
  rsync : Option CacheNode
  https : Option CacheNode
  startup_time : Int

/-- `strcasecmp(x, y) == 0` (ASCII case-insensitive equality). -/
def strcaseEq (a b : String) : Bool := a.toLower == b.toLower

/-- The per-element loop of `load_metadata_json` (local_cache.c:267-280):
unparseable elements are skipped, elements named `rsync`/`https`
(case-insensitively) become the corresponding root, others are dropped. -/
def load_metadata_loop (ptime : String → Option Int) :
    JsonList → CacheState → CacheState
  | .nil, st => st
  | .cons j rest, st =>
    match json2node ptime j with
    | none => load_metadata_loop ptime rest st
    | some node =>
      if strcaseEq node.basename "rsync" then
        load_metadata_loop ptime rest { st with rsync := some node }
      else if strcaseEq node.basename "https" then
        load_metadata_loop ptime rest { st with https := some node }
      else
        load_metadata_loop ptime rest st

/-- `load_metadata_json` (local_cache.c:225-288).  `doc` is the
`json_load_file` outcome (`none` = I/O or parse failure; a non-array
root is also ignored); missing roots are synthesized by `init_root`. -/
def load_metadata_json (ptime : String → Option Int) (doc : Option Json)
    (st : CacheState) : CacheState :=
  let st' := match doc with
    | some (.jarr elems) => load_metadata_loop ptime elems st
    | _ => st
  { st' with
    rsync := some (st'.rsync.getD (newNode "rsync")),
    https := some (st'.https.getD (newNode "https")) }

/-- `cache_prepare` (local_cache.c:290-299): stamp `startup_time` with
the current clock on *every* call; load the metadata only when the
`rsync` root is still unset. -/
def cache_prepare (now : Int) (ptime : String → Option Int) (doc : Option Json)
    (st : CacheState) : CacheState :=
  let st₁ := { st with startup_time := now }
  if st₁.rsync.isNone then load_metadata_json ptime doc st₁ else st₁

def ptime0 : String → Option Int := fun _ => some 0

def badChild : Json :=
  .jobj (.cons "basename" (.jstr "b") (.cons "flags" (.jstr "oops") .nil))

def parentAlone : Json :=
  .jobj (.cons "basename" (.jstr "rsync") (.cons "flags" (.jint 7)
    (.cons "ts_success" (.jstr "t") (.cons "ts_attempt" (.jstr "t")
    (.cons "error" (.jint 0) .nil)))))

def parentWithBadChild : Json :=
  .jobj (.cons "basename" (.jstr "rsync") (.cons "flags" (.jint 7)
    (.cons "ts_success" (.jstr "t") (.cons "ts_attempt" (.jstr "t")
    (.cons "error" (.jint 0) (.cons "children"
      (.jarr (.cons badChild .nil)) .nil))))))

example : json2node ptime0 parentAlone = some (CacheNode.mk "rsync" 7 0 0 0 []) := by rfl
example : json2node ptime0 badChild = none := by rfl
example : json2node ptime0 parentWithBadChild = none := by rfl

theorem load_metadata_loop_cons (ptime : String → Option Int) (j : Json)
    (rest : JsonList) (st : CacheState) :
    load_metadata_loop ptime (.cons j rest) st
      = match json2node ptime j with
        | none => load_metadata_loop ptime rest st
        | some node =>
          if strcaseEq node.basename "rsync" then
            load_metadata_loop ptime rest { st with rsync := some node }
          else if strcaseEq node.basename "https" then
            load_metadata_loop ptime rest { st with https := some node }
          else
            load_metadata_loop ptime rest st := rfl

theorem load_metadata_loop_skip (ptime : String → Option Int) (st : CacheState)
    (b : Json) (rest : JsonList) (hb : json2node ptime b = none) :
    load_metadata_loop ptime (.cons b rest) st = load_metadata_loop ptime rest st := by
  rw [load_metadata_loop_cons, hb]

/-- C4 (amended: defensive metadata load, per-top-level-tree): a
malformed field discards the offending node, its already-loaded subtree,
its already-loaded siblings *and its whole ancestor chain up to the
enclosing top-level array element* (`json2node` cancels the parent when
a child fails); the other top-level elements still load exactly as if
the bad element were absent, and the load never aborts. -/
theorem metadata_load_skips_bad_elements (ptime : String → Option Int) (st : CacheState)
    (b : Json) (rest : JsonList) (hb : json2node ptime b = none) :
    load_metadata_json ptime (some (.jarr (.cons b rest))) st
      = load_metadata_json ptime (some (.jarr rest)) st := by
  unfold load_metadata_json
  simp only []
  rw [load_metadata_loop_skip ptime st b rest hb]

theorem metadata_load_skips_bad_elements_witness :
    load_metadata_json ptime0 (some (.jarr (.cons badChild (.cons parentAlone .nil))))
        { rsync := none, https := none, startup_time := 0 }
      = load_metadata_json ptime0 (some (.jarr (.cons parentAlone .nil)))
        { rsync := none, https := none, startup_time := 0 } :=
  metadata_load_skips_bad_elements ptime0
    { rsync := none, https := none, startup_time := 0 }
    badChild (.cons parentAlone .nil) (by rfl)

/-- C4 counterexample: the top-level `rsync` node of `parentWithBadChild`
is itself perfectly well-formed (alone it loads as flags 7), but one
malformed grandchild field (`flags` is a string) makes `json2node`
cancel the *ancestor* as well, so the whole tree is discarded and the
load falls back to a synthesized empty root — the claim's "siblings and
ancestors are still loaded" is false. -/
theorem metadata_ancestor_discarded_counterexample :
    json2node ptime0 parentAlone = some (CacheNode.mk "rsync" 7 0 0 0 [])
    ∧ json2node ptime0 parentWithBadChild = none
    ∧ load_metadata_json ptime0 (some (.jarr (.cons parentWithBadChild .nil)))
        { rsync := none, https := none, startup_time := 0 }
      = { rsync := some (newNode "rsync"), https := some (newNode "https"),
          startup_time := 0 } :=
  ⟨rfl, rfl, rfl⟩

def jsonListLen : JsonList → Nat
  | .nil => 0
  | .cons _ t => jsonListLen t + 1

theorem load_metadata_loop_startup_aux (ptime : String → Option Int) :
    ∀ (n : Nat) (l : JsonList), jsonListLen l ≤ n →
      ∀ (st : CacheState),
        (load_metadata_loop ptime l st).startup_time = st.startup_time := by
  intro n
  induction n with
  | zero =>
    intro l hl st
    cases l with
    | nil => rfl
    | cons j rest => simp [jsonListLen] at hl
  | succ n ih =>
    intro l hl st
    cases l with
    | nil => rfl
    | cons j rest =>
      have hr : jsonListLen rest ≤ n := by
        simp [jsonListLen] at hl
        omega
      unfold load_metadata_loop
      cases hj : json2node ptime j with
      | none => simp only [hj]; exact ih rest hr st
      | some node =>
        simp only [hj]
        split_ifs <;> rw [ih rest hr]

theorem load_metadata_loop_startup (ptime : String → Option Int) (l : JsonList)
    (st : CacheState) :
    (load_metadata_loop ptime l st).startup_time = st.startup_time :=
  load_metadata_loop_startup_aux ptime (jsonListLen l) l (Nat.le_refl _) st

theorem load_metadata_json_rsync_some (ptime : String → Option Int)
    (doc : Option Json) (st : CacheState) :
    (load_metadata_json ptime doc st).rsync.isSome = true := rfl

theorem load_metadata_json_startup (ptime : String → Option Int)
    (doc : Option Json) (st : CacheState) :
    (load_metadata_json ptime doc st).startup_time = st.startup_time := by
  unfold load_metadata_json
  cases doc with
  | none => rfl
  | some j =>
    cases j
    case jarr elems => exact load_metadata_loop_startup ptime elems st
    all_goals rfl

theorem cache_prepare_rsync_isSome (now : Int) (ptime : String → Option Int)
    (doc : Option Json) (st : CacheState) :
    (cache_prepare now ptime doc st).rsync.isSome = true := by
  unfold cache_prepare
  by_cases h : ({ st with startup_time := now } : CacheState).rsync.isNone = true
  · rw [if_pos h]
    exact load_metadata_json_rsync_some ptime doc _
  · rw [if_neg h]
    show st.rsync.isSome = true
    cases hr : st.rsync with
    | none => exact absurd (by show st.rsync.isNone = true; rw [hr]; rfl) h
    | some v => rfl

theorem cache_prepare_startup (now : Int) (ptime : String → Option Int)
    (doc : Option Json) (st : CacheState) :
    (cache_prepare now ptime doc st).startup_time = now := by
  unfold cache_prepare
  by_cases h : ({ st with startup_time := now } : CacheState).rsync.isNone = true
  · rw [if_pos h, load_metadata_json_startup]
  · rw [if_neg h]

theorem CacheState.update_startup_self (x : CacheState) (v : Int)
    (h : x.startup_time = v) : { x with startup_time := v } = x := by
  cases x
  cases h
  rfl

/-- C9 (amended: `cache_prepare` is idempotent only up to the clock): a
second call never reloads or alters the node trees (metadata is loaded
only while the `rsync` root is unset, and the first call always leaves
it set), but it *re-stamps* `startup_time` with its own current time —
so the observable state is unchanged exactly when the clock reads the
same value as at the first call. -/
theorem prepare_second_call (now₁ now₂ : Int) (ptime : String → Option Int)
    (doc : Option Json) (st : CacheState) :
    (cache_prepare now₂ ptime doc (cache_prepare now₁ ptime doc st)).rsync
        = (cache_prepare now₁ ptime doc st).rsync
    ∧ (cache_prepare now₂ ptime doc (cache_prepare now₁ ptime doc st)).https
        = (cache_prepare now₁ ptime doc st).https
    ∧ (cache_prepare now₂ ptime doc (cache_prepare now₁ ptime doc st)).startup_time = now₂
    ∧ (now₂ = now₁ →
        cache_prepare now₂ ptime doc (cache_prepare now₁ ptime doc st)
          = cache_prepare now₁ ptime doc st) := by
  have hsome := cache_prepare_rsync_isSome now₁ ptime doc st
  have hE : cache_prepare now₂ ptime doc (cache_prepare now₁ ptime doc st)
      = { cache_prepare now₁ ptime doc st with startup_time := now₂ } := by
    unfold cache_prepare
    rw [if_neg ?_]
    show ¬(({ cache_prepare now₁ ptime doc st with startup_time := now₂ }
        : CacheState).rsync.isNone = true)
    show ¬((cache_prepare now₁ ptime doc st).rsync.isNone = true)
    cases hr : (cache_prepare now₁ ptime doc st).rsync with
    | none => rw [hr] at hsome; simp at hsome
    | some v => simp
  refine ⟨by rw [hE], by rw [hE], by rw [hE], ?_⟩
  intro h12
  rw [hE]
  exact CacheState.update_startup_self _ now₂
    (by rw [cache_prepare_startup, h12])

theorem prepare_second_call_witness :
    cache_prepare 5 ptime0 none (cache_prepare 5 ptime0 none
        { rsync := none, https := none, startup_time := 0 })
      = cache_prepare 5 ptime0 none { rsync := none, https := none, startup_time := 0 } :=
  (prepare_second_call 5 5 ptime0 none
    { rsync := none, https := none, startup_time := 0 }).2.2.2 rfl

/-- C9 counterexample: `cache_prepare` re-stamps `startup_time` on every
call (local_cache.c:293 runs unconditionally), so a second call at a
later clock changes the observable state: here it moves `startup_time`
from 5 to 7, flipping the freshness classification of a node whose
`ts_attempt` is 5. -/
theorem prepare_restamps_startup_counterexample :
    (cache_prepare 5 ptime0 none
        { rsync := none, https := none, startup_time := 0 }).startup_time = 5
    ∧ (cache_prepare 7 ptime0 none (cache_prepare 5 ptime0 none
        { rsync := none, https := none, startup_time := 0 })).startup_time = 7
    ∧ was_recently_downloaded 5 (CacheNode.mk "n" 1 5 5 0 []) = true
    ∧ was_recently_downloaded 7 (CacheNode.mk "n" 1 5 5 0 []) = false :=
  ⟨rfl, rfl, by decide, by decide⟩

/-! ### SLURM overlay loader (slurm parser, src/unnamed/part_000)

`Except Int` carries the C error-code convention (0 = success becomes
`.ok`, negative errno values become `.error`).  The openssl-based
standard base64 decoder (`base64_decode` in crypto/base64.c, outside
these sources) is an oracle parameter `b64`; the prefix-record helpers
(`set_prefix` etc.) depend on the external address.c decoders and are
not needed by the claims, which use the BGPsec record path. -/

def EINVAL : Int := 22

/-- Modelled from the spec: "Each record carries a bitset indicating
which optional fields are present."  `slurm_parser.h`, which defines the
numeric values, is not among the sources; distinct powers of two are
used (the exact values are immaterial to the claims). -/
def SLURM_COM_FLAG_NONE : Int := 0
def SLURM_COM_FLAG_ASN : Int := 1
def SLURM_COM_FLAG_COMMENT : Int := 2
def SLURM_BGPS_FLAG_SKI : Int := 4
def SLURM_BGPS_FLAG_ROUTER_KEY : Int := 8

def UINT32_MAX : Int := 4294967295

/-- `json_get_int` (part_000:673-691): absent member yields 0 with
success; non-integer member is `-EINVAL`. -/
def json_get_int (parent : Json) (name : String) : Except Int Int :=
  match objGet parent name with
  | none => .ok 0
  | some (.jint v) => .ok v
  | some _ => .error (-EINVAL)

/-- `json_get_string` (part_000:653-671): absent member yields `NULL`
with success; non-string member is `-EINVAL`. -/
def json_get_string (parent : Json) (name : String) : Except Int (Option String) :=
  match objGet parent name with
  | none => .ok none
  | some (.jstr s) => .ok (some s)
  | some _ => .error (-EINVAL)

/-- `set_asn` (part_000:125-154): 0 (also standing for an absent member)
is required-and-missing for assertions but fine for filters; any other
value outside `[1, UINT32_MAX]` is rejected. -/
def set_asn (object : Json) (is_assertion : Bool) (result flag : Int) :
    Except Int (Int × Int) :=
  match json_get_int object "asn" with
  | .error e => .error e
  | .ok int_tmp =>
    if int_tmp = 0 then
      if is_assertion then .error (-EINVAL) else .ok (result, flag)
    else if int_tmp ≤ 0 ∨ UINT32_MAX < int_tmp then .error (-EINVAL)
    else .ok (int_tmp, addFlag flag SLURM_COM_FLAG_ASN)

/-- `set_comment` (part_000:156-169). -/
def set_comment (object : Json) (flag : Int) : Except Int (Option String × Int) :=
  match json_get_string object "comment" with
  | .error e => .error e
  | .ok (some s) => .ok (some s, addFlag flag SLURM_COM_FLAG_COMMENT)
  | .ok none => .ok (none, flag)

/-- The `str_copy` built by `decode_base64url` (part_000:316-332): the
original string extended with `'='` pads to a multiple of 4 (memset then
memcpy), and the first `encoded_len` characters alphabet-translated
(`- → +`, `_ → /`); the pad characters are unaffected by the
translation, so translating the whole padded string is identical. -/
def decode_str_copy (s : String) : String :=
  String.mk (s.data.map (fun c => if c = '-' then '+' else if c = '_' then '/' else c)
    ++ List.replicate (if s.length % 4 > 0 then 4 - s.length % 4 else 0) '=')

/-- `decode_base64url` (part_000:272-371): reject any `'='` in the
input (`strrchr`), build `str_copy`, decode it as standard base64 via
the external decoder, and reject empty decodings.  Allocation failures
(`-ENOMEM` paths) are not modelled. -/
def decode_base64url (b64 : String → Except Int (List Nat)) (str_encoded : String) :
    Except Int (List Nat) :=
  if str_encoded.data.contains '=' then .error (-EINVAL)
  else
    match b64 (decode_str_copy str_encoded) with
    | .error e => .error e
    | .ok bytes => if bytes.length = 0 then .error (-EINVAL) else .ok bytes

/-- `set_ski` (part_000:373-401); the decoded bytes are freed again
right away (`TODO persist`), so only the flag survives. -/
def set_ski (b64 : String → Except Int (List Nat)) (object : Json)
    (is_assertion : Bool) (flag : Int) : Except Int Int :=
  match json_get_string object "SKI" with
  | .error e => .error e
  | .ok none => if is_assertion then .error (-EINVAL) else .ok flag
  | .ok (some s) =>
    match decode_base64url b64 s with
    | .error e => .error e
    | .ok _ => .ok (addFlag flag SLURM_BGPS_FLAG_SKI)

/-- `set_router_pub_key` (part_000:403-442): ignored for filters,
required for assertions. -/
def set_router_pub_key (b64 : String → Except Int (List Nat)) (object : Json)
    (is_assertion : Bool) (flag : Int) : Except Int Int :=
  if !is_assertion then .ok flag
  else
    match json_get_string object "routerPublicKey" with
    | .error e => .error e
    | .ok none => .error (-EINVAL)
    | .ok (some s) =>
      match decode_base64url b64 s with
      | .error e => .error e
      | .ok _ => .ok (addFlag flag SLURM_BGPS_FLAG_ROUTER_KEY)

def Json.isObj : Json → Bool
  | .jobj _ => true
  | _ => false

/-- `load_single_bgpsec` (part_000:504-534).  The C version returns only
the error code and discards the record; the model additionally returns
the record's `(asn, data_flag)` pair for observability (the
uninitialized `result.asn` of the C struct is modelled as 0). -/
def load_single_bgpsec (b64 : String → Except Int (List Nat)) (object : Json)
    (is_assertion : Bool) : Except Int (Int × Int) :=
  if !object.isObj then .error (-EINVAL)
  else
    match set_asn object is_assertion 0 SLURM_COM_FLAG_NONE with
    | .error e => .error e
    | .ok (asn, flag₁) =>
      match set_ski b64 object is_assertion flag₁ with
      | .error e => .error e
      | .ok flag₂ =>
        match set_router_pub_key b64 object is_assertion flag₂ with
        | .error e => .error e
        | .ok flag₃ =>
          match set_comment object flag₃ with
          | .error e => .error e
          | .ok (_, flag₄) => .ok (asn, flag₄)

def b64none : String → Except Int (List Nat) := fun _ => .error (-EINVAL)

example : set_asn (.jobj (.cons "asn" (.jint 4294967296) .nil)) false 0 0
    = .error (-EINVAL) := by rfl
example : set_asn (.jobj (.cons "asn" (.jint (-3)) .nil)) true 0 0
    = .error (-EINVAL) := by rfl
example : load_single_bgpsec b64none (.jobj (.cons "asn" (.jint 0) .nil)) false
    = .ok (0, 0) := by rfl

theorem isObj_of_objGet {j : Json} {k : String} {v : Json}
    (h : objGet j k = some v) : j.isObj = true := by
  cases j <;> first | rfl | exact Option.noConfusion h

/-- C7 (amended: ASN range validation): every record whose `asn` member
holds a *nonzero* integer outside `[1, 2^32 - 1]` is rejected by
`set_asn` and hence by the record loader; additionally, an `asn` of
exactly 0 (the same value an absent member yields) is rejected for
assertions — but for filters it is treated as an absent optional member
and accepted. -/
theorem asn_out_of_range_rejected (object : Json) (v : Int) (is_assertion : Bool)
    (r f : Int) (b64 : String → Except Int (List Nat))
    (hm : objGet object "asn" = some (.jint v)) (hv : ¬v = 0)
    (hout : v ≤ 0 ∨ UINT32_MAX < v) :
    set_asn object is_assertion r f = .error (-EINVAL)
    ∧ load_single_bgpsec b64 object is_assertion = .error (-EINVAL)
    ∧ (∀ (object₂ : Json) (r₂ f₂ : Int), objGet object₂ "asn" = some (.jint 0) →
        set_asn object₂ true r₂ f₂ = .error (-EINVAL)) := by
  have hget : json_get_int object "asn" = .ok v := by
    unfold json_get_int
    rw [hm]
  have hset : ∀ r' f', set_asn object is_assertion r' f' = .error (-EINVAL) := by
    intro r' f'
    unfold set_asn
    rw [hget]
    show (if v = 0 then _ else if v ≤ 0 ∨ UINT32_MAX < v then _ else _) = _
    rw [if_neg hv, if_pos hout]
  refine ⟨hset r f, ?_, ?_⟩
  · unfold load_single_bgpsec
    have hobj : ¬((!object.isObj) = true) := by
      rw [isObj_of_objGet hm]
      simp
    rw [if_neg hobj, hset 0 SLURM_COM_FLAG_NONE]
  · intro object₂ r₂ f₂ hm₂
    have hget₂ : json_get_int object₂ "asn" = .ok 0 := by
      unfold json_get_int
      rw [hm₂]
    unfold set_asn
    rw [hget₂]
    show (if (0 : Int) = 0 then _ else _) = _
    rw [if_pos rfl, if_pos rfl]

theorem asn_out_of_range_rejected_witness :
    set_asn (.jobj (.cons "asn" (.jint 4294967296) .nil)) false 0 0 = .error (-EINVAL)
    ∧ load_single_bgpsec b64none (.jobj (.cons "asn" (.jint 4294967296) .nil)) false
      = .error (-EINVAL)
    ∧ (∀ (object₂ : Json) (r₂ f₂ : Int), objGet object₂ "asn" = some (.jint 0) →
        set_asn object₂ true r₂ f₂ = .error (-EINVAL)) :=
  asn_out_of_range_rejected (.jobj (.cons "asn" (.jint 4294967296) .nil)) 4294967296
    false 0 0 b64none (by rfl) (by decide) (by decide)

/-- C7 counterexample: a BGPsec *filter* record whose `asn` member holds
the integer 0 — a value outside `[1, 2^32 - 1]` — is *accepted*:
`set_asn` treats 0 like an absent optional member for filters
(part_000:136-143), so the loader keeps the record. -/
theorem asn_zero_filter_accepted_counterexample :
    set_asn (.jobj (.cons "asn" (.jint 0) .nil)) false 9 0 = .ok (9, 0)
    ∧ load_single_bgpsec b64none (.jobj (.cons "asn" (.jint 0) .nil)) false
      = .ok (0, 0) :=
  ⟨rfl, rfl⟩

/-- The spec's description of the alphabet translation and padding:
"converts `- → +` and `_ → /`, appends the appropriate number of `=`
pads to reach a multiple of 4". -/
def base64url_translate_pad (s : String) : String :=
  String.mk (s.data.map (fun c => if c = '-' then '+' else if c = '_' then '/' else c))
    ++ String.mk (List.replicate ((4 - s.length % 4) % 4) '=')

theorem decode_str_copy_eq (s : String) :
    decode_str_copy s = base64url_translate_pad s := by
  unfold decode_str_copy base64url_translate_pad
  rw [show (if s.length % 4 > 0 then 4 - s.length % 4 else 0)
        = (4 - s.length % 4) % 4 from by
    by_cases h : s.length % 4 > 0
    · rw [if_pos h]
      omega
    · rw [if_neg h]
      omega]
  rfl

/-- C8 (base64url decoding): `decode_base64url` rejects every string
containing `'='`; on `'='`-free input it returns exactly what the
standard base64 decoder returns on the alphabet-translated, canonically
padded string — accepting nonempty decodings, rejecting an empty
decoding as `-EINVAL`, and propagating the decoder's error on invalid
base64. -/
theorem base64url_decode_spec :
    (∀ (b64 : String → Except Int (List Nat)) (s : String),
        s.data.contains '=' = true → decode_base64url b64 s = .error (-EINVAL))
    ∧ (∀ (b64 : String → Except Int (List Nat)) (s : String) (bs : List Nat),
        s.data.contains '=' = false →
        b64 (base64url_translate_pad s) = .ok bs → ¬bs = [] →
        decode_base64url b64 s = .ok bs)
    ∧ (∀ (b64 : String → Except Int (List Nat)) (s : String),
        s.data.contains '=' = false →
        b64 (base64url_translate_pad s) = .ok [] →
        decode_base64url b64 s = .error (-EINVAL))
    ∧ (∀ (b64 : String → Except Int (List Nat)) (s : String) (e : Int),
        s.data.contains '=' = false →
        b64 (base64url_translate_pad s) = .error e →
        decode_base64url b64 s = .error e) := by
  refine ⟨?_, ?_, ?_, ?_⟩
  · intro b64 s h
    unfold decode_base64url
    rw [if_pos h]
  · intro b64 s bs h hb hne
    unfold decode_base64url
    rw [if_neg (by rw [h]; simp), decode_str_copy_eq, hb]
    simp [List.length_eq_zero, hne]
  · intro b64 s h hb
    unfold decode_base64url
    rw [if_neg (by rw [h]; simp), decode_str_copy_eq, hb]
    rfl
  · intro b64 s e h hb
    unfold decode_base64url
    rw [if_neg (by rw [h]; simp), decode_str_copy_eq, hb]

def b64twobytes : String → Except Int (List Nat) := fun _ => .ok [1, 2]

def b64empty : String → Except Int (List Nat) := fun _ => .ok []

theorem base64url_decode_spec_witness :
    decode_base64url b64none "a=" = .error (-EINVAL)
    ∧ decode_base64url b64twobytes "abc-_" = .ok [1, 2]
    ∧ decode_base64url b64empty "abc" = .error (-EINVAL)
    ∧ decode_base64url b64none "abc" = .error (-EINVAL) :=
  ⟨base64url_decode_spec.1 b64none "a=" (by decide),
   base64url_decode_spec.2.1 b64twobytes "abc-_" [1, 2] (by decide) (by rfl) (by decide),
   base64url_decode_spec.2.2.1 b64empty "abc" (by decide) (by rfl),
   base64url_decode_spec.2.2.2 b64none "abc" (-EINVAL) (by decide) (by rfl)⟩
